import Mathlib

/-!
Shallow embedding of the Chapter 2 ray tracer
(`Chapter2/lib/canvas.cpp`, `Chapter2/lib/raytracing.cpp`,
`Chapter2/main.cpp`) and proofs about it.

Modelling conventions:
* `float` values are modelled as real numbers; the IEEE `+infinity`
  sentinel produced by `IntersectRaySphere` and the `t_min`/`t_max`
  range bounds live in `EReal` (reals extended with `⊤`/`⊥`).
* C++ `int` is modelled as `ℤ`; C++ integer division truncates toward
  zero, which is `Int.tdiv`.
* The raylib framebuffer is modelled as a total function
  `ℤ → ℤ → Color`; `DrawPixel` becomes a pointwise functional update.
* Window/present/event-loop code (raylib calls) carries no algorithmic
  state relevant to the claims and is not modelled.
-/

namespace Graphics

/-- raylib's `Color`: four 8-bit channels r, g, b, a. -/
structure Color where
  r : ℕ
  g : ℕ
  b : ℕ
  a : ℕ
deriving DecidableEq

/-- raylib's `Vector3`, with `float` components modelled as reals. -/
structure Vec3 where
  x : ℝ
  y : ℝ
  z : ℝ

/-- raymath's `Vector3DotProduct`. -/
noncomputable def Vector3DotProduct (a b : Vec3) : ℝ :=
  a.x * b.x + a.y * b.y + a.z * b.z

/-- raymath's `Vector3Subtract`. -/
noncomputable def Vector3Subtract (a b : Vec3) : Vec3 :=
  ⟨a.x - b.x, a.y - b.y, a.z - b.z⟩

/-- `graphics::Sphere` (raytracing.hpp): center, radius, color. -/
structure Sphere where
  center : Vec3
  radius : ℝ
  color : Color

/-- The state of `graphics::Canvas` (canvas.hpp): canvas dimensions,
viewport parameters, background color, and the render-texture pixel
buffer (modelled as a total function on integer coordinates). -/
structure Canvas where
  CanvasWidth : ℤ
  CanvasHeight : ℤ
  ViewWidth : ℝ
  ViewHeight : ℝ
  Distance : ℝ
  background : Color
  pixels : ℤ → ℤ → Color

/-- `Canvas::IsInBounds` (canvas.cpp):
`x >= 0 && x < CanvasWidth && y >= 0 && y < CanvasHeight`. -/
def Canvas.IsInBounds (c : Canvas) (x y : ℤ) : Bool :=
  decide (0 ≤ x) && decide (x < c.CanvasWidth) &&
  decide (0 ≤ y) && decide (y < c.CanvasHeight)

/-- `Canvas::IsInBoundsCentered` (canvas.cpp):
`x >= -CanvasWidth / 2 && x < CanvasWidth / 2 && y >= -CanvasHeight / 2
&& y < CanvasHeight / 2`, with C++ division truncating toward zero. -/
def Canvas.IsInBoundsCentered (c : Canvas) (x y : ℤ) : Bool :=
  decide (Int.tdiv (-c.CanvasWidth) 2 ≤ x) && decide (x < Int.tdiv c.CanvasWidth 2) &&
  decide (Int.tdiv (-c.CanvasHeight) 2 ≤ y) && decide (y < Int.tdiv c.CanvasHeight 2)

/-- `Canvas::PutPixel` (canvas.cpp): draws the pixel only when
`IsInBounds(x, y)`; otherwise the canvas is untouched. -/
def Canvas.PutPixel (c : Canvas) (x y : ℤ) (color : Color) : Canvas :=
  if c.IsInBounds x y then
    { c with pixels := fun a b => if a = x ∧ b = y then color else c.pixels a b }
  else c

/-- `Canvas::PutPixelCentered` (canvas.cpp):
`screenX = CanvasWidth / 2 + x`, `screenY = CanvasHeight / 2 - y`,
then `PutPixel(screenX, screenY, color)`. -/
def Canvas.PutPixelCentered (c : Canvas) (x y : ℤ) (color : Color) : Canvas :=
  c.PutPixel (Int.tdiv c.CanvasWidth 2 + x) (Int.tdiv c.CanvasHeight 2 - y) color

/-- `Canvas::CanvasToViewPort` (canvas.cpp): returns
`(x * ViewWidth / CanvasWidth, -(y * ViewHeight / CanvasHeight), Distance)`. -/
noncomputable def Canvas.CanvasToViewPort (c : Canvas) (x y : ℤ) : Vec3 :=
  ⟨(x : ℝ) * c.ViewWidth / (c.CanvasWidth : ℝ),
   -((y : ℝ) * c.ViewHeight / (c.CanvasHeight : ℝ)),
   c.Distance⟩

/-- The concrete canvas of `main.cpp`: 800×600, viewport 1×1 at
distance 1, background white (set by `canvas.Clear(WHITE)`), and an
initially white pixel buffer. -/
noncomputable def mainCanvas : Canvas :=
  ⟨800, 600, 1, 1, 1, ⟨255, 255, 255, 255⟩, fun _ _ => ⟨255, 255, 255, 255⟩⟩

end Graphics

namespace Graphics

/-- The local `k1` of `Raytracer::IntersectRaySphere`:
`Vector3DotProduct(direction, direction)`. -/
noncomputable def iK1 (direction : Vec3) : ℝ :=
  Vector3DotProduct direction direction

/-- The local `k2` of `Raytracer::IntersectRaySphere`:
`2.0f * Vector3DotProduct(oc, direction)` with `oc = origin - center`. -/
noncomputable def iK2 (origin direction : Vec3) (sphere : Sphere) : ℝ :=
  2 * Vector3DotProduct (Vector3Subtract origin sphere.center) direction

/-- The local `k3` of `Raytracer::IntersectRaySphere`:
`Vector3DotProduct(oc, oc) - radius * radius`. -/
noncomputable def iK3 (origin : Vec3) (sphere : Sphere) : ℝ :=
  Vector3DotProduct (Vector3Subtract origin sphere.center)
      (Vector3Subtract origin sphere.center) -
    sphere.radius * sphere.radius

/-- The local `discriminant` of `Raytracer::IntersectRaySphere`:
`k2*k2 - 4*k1*k3`. -/
noncomputable def discriminant (origin direction : Vec3) (sphere : Sphere) : ℝ :=
  iK2 origin direction sphere * iK2 origin direction sphere -
    4 * iK1 direction * iK3 origin sphere

/-- `Raytracer::IntersectRaySphere` (raytracing.cpp): if the
discriminant is negative return `(+∞, +∞)`, else return
`((-k2 + sqrt(D)) / (2*k1), (-k2 - sqrt(D)) / (2*k1))`. -/
noncomputable def IntersectRaySphere (origin direction : Vec3) (sphere : Sphere) :
    EReal × EReal :=
  if discriminant origin direction sphere < 0 then (⊤, ⊤)
  else
    (((-iK2 origin direction sphere + Real.sqrt (discriminant origin direction sphere)) /
        (2 * iK1 direction) : ℝ),
     ((-iK2 origin direction sphere - Real.sqrt (discriminant origin direction sphere)) /
        (2 * iK1 direction) : ℝ))

/-- The pair of local variables `closest_t` / `closest_sphere` of
`Raytracer::TraceRay`. -/
structure TraceState where
  closest_t : EReal
  closest_sphere : Option Sphere

/-- One iteration of the `for (auto & sphere : spheres)` loop of
`Raytracer::TraceRay`: the first root is tested and possibly recorded,
then the second root against the updated state. -/
noncomputable def TraceRayStep (origin direction : Vec3) (t_min t_max : EReal)
    (st : TraceState) (sphere : Sphere) : TraceState :=
  let fst := (IntersectRaySphere origin direction sphere).1
  let snd := (IntersectRaySphere origin direction sphere).2
  let st1 :=
    if fst < st.closest_t ∧ t_min < fst ∧ fst < t_max then
      TraceState.mk fst (some sphere)
    else st
  if snd < st1.closest_t ∧ t_min < snd ∧ snd < t_max then
    TraceState.mk snd (some sphere)
  else st1

/-- The whole `for (auto & sphere : spheres)` loop of
`Raytracer::TraceRay`, from an arbitrary starting state. -/
noncomputable def traceFold (origin direction : Vec3) (t_min t_max : EReal)
    (st : TraceState) (l : List Sphere) : TraceState :=
  l.foldl (TraceRayStep origin direction t_min t_max) st

/-- `Raytracer::TraceRay` (raytracing.cpp): scan all spheres starting
from `closest_t = +∞`, `closest_sphere = nullptr`; if no sphere was
recorded return the canvas's background color, else the recorded
sphere's color. -/
noncomputable def TraceRay (background : Color) (spheres : List Sphere)
    (origin direction : Vec3) (t_min t_max : EReal) : Color :=
  match (traceFold origin direction t_min t_max (TraceState.mk ⊤ none)
      spheres).closest_sphere with
  | none => background
  | some s => s.color

/-- `t` lies strictly inside the valid parametric range
`(t_min, t_max)`: the `t_min < t && t < t_max` part of the loop's
update test. -/
def Qualifies (t_min t_max t : EReal) : Prop := t_min < t ∧ t < t_max

/-- `t` is one of the two values `IntersectRaySphere` returns for this
ray and sphere. -/
def IsRoot (origin direction : Vec3) (sphere : Sphere) (t : EReal) : Prop :=
  t = (IntersectRaySphere origin direction sphere).1 ∨
  t = (IntersectRaySphere origin direction sphere).2

/-- The sphere contributes a root strictly inside `(t_min, t_max)`. -/
def Contributes (origin direction : Vec3) (t_min t_max : EReal) (sphere : Sphere) : Prop :=
  Qualifies t_min t_max (IntersectRaySphere origin direction sphere).1 ∨
  Qualifies t_min t_max (IntersectRaySphere origin direction sphere).2

/-- One root test of the loop body, factored out: record `t` as new
closest hit when `t < closest_t && t_min < t && t < t_max`. -/
noncomputable def upd (t_min t_max : EReal) (st : TraceState) (t : EReal)
    (sphere : Sphere) : TraceState :=
  if t < st.closest_t ∧ t_min < t ∧ t < t_max then TraceState.mk t (some sphere)
  else st

/-- The scene built by the `Raytracer` constructor (raytracing.cpp):
red, green and blue unit spheres, the yellow ground sphere, and a
black sphere. -/
noncomputable def constructorSpheres : List Sphere :=
  [⟨⟨0, -1, 3⟩, 1, ⟨255, 0, 0, 255⟩⟩,
   ⟨⟨-2, 0, 4⟩, 1, ⟨0, 255, 0, 255⟩⟩,
   ⟨⟨2, 0, 4⟩, 1, ⟨0, 0, 255, 255⟩⟩,
   ⟨⟨0, -5001, 0⟩, 5000, ⟨255, 255, 0, 255⟩⟩,
   ⟨⟨0, 2, 3⟩, 1, ⟨0, 0, 0, 255⟩⟩]

/-- The `Raytracer` object's own state: the sphere array fixed at
construction.  (The canvas reference is only read for its background
color, which `TraceRay` takes as an argument here.) -/
structure Raytracer where
  spheres : List Sphere

/-- The arguments of one `TraceRay` call, together with the background
color the referenced canvas holds at call time. -/
structure RayQuery where
  background : Color
  origin : Vec3
  direction : Vec3
  t_min : EReal
  t_max : EReal

/-- One `TraceRay` member-function call, state-passing style: the
returned color together with the post-call `Raytracer` state (the body
assigns only to locals, never to the `spheres` member). -/
noncomputable def Raytracer.traceRayCall (rt : Raytracer) (q : RayQuery) :
    Color × Raytracer :=
  (TraceRay q.background rt.spheres q.origin q.direction q.t_min q.t_max, rt)

/-- A whole sequence of `TraceRay` calls, threading the `Raytracer`
state through. -/
noncomputable def Raytracer.runCalls (rt : Raytracer) (qs : List RayQuery) : Raytracer :=
  qs.foldl (fun r q => (r.traceRayCall q).2) rt

/-- A loop iteration is the two root tests in sequence. -/
theorem traceRayStep_eq (origin direction : Vec3) (t_min t_max : EReal)
    (st : TraceState) (sphere : Sphere) :
    TraceRayStep origin direction t_min t_max st sphere =
      upd t_min t_max
        (upd t_min t_max st (IntersectRaySphere origin direction sphere).1 sphere)
        (IntersectRaySphere origin direction sphere).2 sphere := rfl

/-- A root test that fires records the root and its sphere. -/
theorem upd_yes {t_min t_max : EReal} {st : TraceState} {t : EReal} {s : Sphere}
    (h : t < st.closest_t ∧ t_min < t ∧ t < t_max) :
    upd t_min t_max st t s = TraceState.mk t (some s) := by
  rw [upd, if_pos h]

/-- A root test that does not fire leaves the state unchanged. -/
theorem upd_no {t_min t_max : EReal} {st : TraceState} {t : EReal} {s : Sphere}
    (h : ¬(t < st.closest_t ∧ t_min < t ∧ t < t_max)) :
    upd t_min t_max st t s = st := by
  rw [upd, if_neg h]

/-- A root test keeps `closest_t` strictly above `t'` when the state
is above `t'` and any in-range root tested is above `t'`. -/
theorem upd_gt {t_min t_max : EReal} {st : TraceState} {t : EReal} {s : Sphere}
    {t' : EReal} (hst : t' < st.closest_t)
    (h : t_min < t → t < t_max → t' < t) :
    t' < (upd t_min t_max st t s).closest_t := by
  by_cases hc : t < st.closest_t ∧ t_min < t ∧ t < t_max
  · rw [upd, if_pos hc]
    exact h hc.2.1 hc.2.2
  · rw [upd, if_neg hc]
    exact hst

/-- If neither root of the sphere passes the update test, the loop
iteration leaves the state unchanged. -/
theorem traceRayStep_no_update (origin direction : Vec3) (t_min t_max : EReal)
    (st : TraceState) (sphere : Sphere)
    (h : ∀ t : EReal, IsRoot origin direction sphere t →
      ¬(t < st.closest_t ∧ t_min < t ∧ t < t_max)) :
    TraceRayStep origin direction t_min t_max st sphere = st := by
  rw [traceRayStep_eq, upd_no (h _ (Or.inl rfl)), upd_no (h _ (Or.inr rfl))]

/-- `closest_t` stays strictly above `t` across one loop iteration
when every in-range root of the sphere is strictly above `t`. -/
theorem traceRayStep_gt (origin direction : Vec3) (t_min t_max t : EReal)
    (st : TraceState) (sphere : Sphere) (hst : t < st.closest_t)
    (h : ∀ r : EReal, IsRoot origin direction sphere r →
      t_min < r → r < t_max → t < r) :
    t < (TraceRayStep origin direction t_min t_max st sphere).closest_t := by
  rw [traceRayStep_eq]
  exact upd_gt (upd_gt hst (h _ (Or.inl rfl))) (h _ (Or.inr rfl))

/-- If `t` is an in-range root of the sphere, below the current
`closest_t` and not above any other in-range root of the same sphere,
the loop iteration ends with exactly `(t, this sphere)` recorded. -/
theorem traceRayStep_winner (origin direction : Vec3) (t_min t_max t : EReal)
    (st : TraceState) (sphere : Sphere)
    (ht : IsRoot origin direction sphere t)
    (hq1 : t_min < t) (hq2 : t < t_max) (hlt : t < st.closest_t)
    (hmin : ∀ r : EReal, IsRoot origin direction sphere r →
      t_min < r → r < t_max → t ≤ r) :
    TraceRayStep origin direction t_min t_max st sphere =
      TraceState.mk t (some sphere) := by
  rw [traceRayStep_eq]
  rcases ht with h | h
  · rw [← h, upd_yes ⟨hlt, hq1, hq2⟩]
    apply upd_no
    intro hcon
    exact absurd hcon.1 (not_lt.mpr (hmin _ (Or.inr rfl) hcon.2.1 hcon.2.2))
  · rw [← h]
    by_cases h1 : (IntersectRaySphere origin direction sphere).1 < st.closest_t ∧
        t_min < (IntersectRaySphere origin direction sphere).1 ∧
        (IntersectRaySphere origin direction sphere).1 < t_max
    · rw [upd_yes h1]
      have hle : t ≤ (IntersectRaySphere origin direction sphere).1 :=
        hmin _ (Or.inl rfl) h1.2.1 h1.2.2
      rcases lt_or_eq_of_le hle with hlt1 | heq1
      · exact upd_yes ⟨hlt1, hq1, hq2⟩
      · rw [← heq1]
        apply upd_no
        intro hcon
        exact absurd hcon.1 (lt_irrefl t)
    · rw [upd_no h1]
      exact upd_yes ⟨hlt, hq1, hq2⟩

/-- The loop over the empty list returns the starting state. -/
theorem traceFold_nil {origin direction : Vec3} {t_min t_max : EReal}
    {st : TraceState} : traceFold origin direction t_min t_max st [] = st := rfl

/-- The loop over `a :: l` is one iteration on `a` followed by the
loop over `l`. -/
theorem traceFold_cons {origin direction : Vec3} {t_min t_max : EReal}
    {st : TraceState} {a : Sphere} {l : List Sphere} :
    traceFold origin direction t_min t_max st (a :: l) =
      traceFold origin direction t_min t_max
        (TraceRayStep origin direction t_min t_max st a) l := rfl

/-- If no root of any listed sphere passes the update test against
the starting state, the whole loop leaves the state unchanged. -/
theorem traceFold_no_update (origin direction : Vec3) (t_min t_max : EReal) :
    ∀ (l : List Sphere) (st : TraceState),
      (∀ s ∈ l, ∀ t : EReal, IsRoot origin direction s t →
        ¬(t < st.closest_t ∧ t_min < t ∧ t < t_max)) →
      traceFold origin direction t_min t_max st l = st := by
  intro l
  induction l with
  | nil => intro st _; rfl
  | cons a tl ih =>
    intro st h
    rw [traceFold_cons,
      traceRayStep_no_update origin direction t_min t_max st a
        (h a (List.mem_cons_self a tl))]
    exact ih st fun s hs => h s (List.mem_cons_of_mem a hs)

/-- `closest_t` stays strictly above `t` across the whole loop when
every in-range root of every listed sphere is strictly above `t`. -/
theorem traceFold_gt (origin direction : Vec3) (t_min t_max t : EReal) :
    ∀ (l : List Sphere) (st : TraceState), t < st.closest_t →
      (∀ s ∈ l, ∀ r : EReal, IsRoot origin direction s r →
        t_min < r → r < t_max → t < r) →
      t < (traceFold origin direction t_min t_max st l).closest_t := by
  intro l
  induction l with
  | nil => intro st hst _; exact hst
  | cons a tl ih =>
    intro st hst h
    rw [traceFold_cons]
    exact ih _
      (traceRayStep_gt origin direction t_min t_max t st a hst
        (h a (List.mem_cons_self a tl)))
      (fun s hs => h s (List.mem_cons_of_mem a hs))

/-- Main loop lemma: if `t` is an in-range root of `s`, every in-range
root of the spheres before `s` is strictly above `t`, and no in-range
root of `s` or of the spheres after it is below `t`, then the loop
ends with exactly `(t, s)` recorded. -/
theorem traceFold_winner (origin direction : Vec3) (t_min t_max t : EReal)
    (s : Sphere) (l₂ : List Sphere)
    (hroot : IsRoot origin direction s t) (hq1 : t_min < t) (hq2 : t < t_max)
    (hself : ∀ r : EReal, IsRoot origin direction s r →
      t_min < r → r < t_max → t ≤ r)
    (hl₂ : ∀ s' ∈ l₂, ∀ r : EReal, IsRoot origin direction s' r →
      t_min < r → r < t_max → t ≤ r) :
    ∀ (l₁ : List Sphere) (st : TraceState), t < st.closest_t →
      (∀ s' ∈ l₁, ∀ r : EReal, IsRoot origin direction s' r →
        t_min < r → r < t_max → t < r) →
      traceFold origin direction t_min t_max st (l₁ ++ s :: l₂) =
        TraceState.mk t (some s) := by
  intro l₁
  induction l₁ with
  | nil =>
    intro st hst _
    rw [List.nil_append, traceFold_cons,
      traceRayStep_winner origin direction t_min t_max t st s hroot hq1 hq2 hst hself]
    exact traceFold_no_update origin direction t_min t_max l₂ _
      (fun s' hs' r hr hcon =>
        absurd hcon.1 (not_lt.mpr (hl₂ s' hs' r hr hcon.2.1 hcon.2.2)))
  | cons a tl ih =>
    intro st hst h
    rw [List.cons_append, traceFold_cons]
    exact ih _
      (traceRayStep_gt origin direction t_min t_max t st a hst
        (h a (List.mem_cons_self a tl)))
      (fun s' hs' => h s' (List.mem_cons_of_mem a hs'))

/-- When the loop records nothing, `TraceRay` returns the background. -/
theorem TraceRay_of_none {background : Color} {l : List Sphere}
    {origin direction : Vec3} {t_min t_max : EReal}
    (h : traceFold origin direction t_min t_max (TraceState.mk ⊤ none) l =
      TraceState.mk ⊤ none) :
    TraceRay background l origin direction t_min t_max = background := by
  rw [TraceRay, h]

/-- When the loop ends with sphere `s` recorded, `TraceRay` returns
its color. -/
theorem TraceRay_of_some {background : Color} {l : List Sphere}
    {origin direction : Vec3} {t_min t_max t : EReal} {s : Sphere}
    (h : traceFold origin direction t_min t_max (TraceState.mk ⊤ none) l =
      TraceState.mk t (some s)) :
    TraceRay background l origin direction t_min t_max = s.color := by
  rw [TraceRay, h]

/-- Every member of a list sits after a prefix that does not contain
it (split at the first occurrence). -/
theorem exists_first_split {α : Type} (a : α) :
    ∀ l : List α, a ∈ l → ∃ l₁ l₂, l = l₁ ++ a :: l₂ ∧ a ∉ l₁ := by
  intro l
  induction l with
  | nil => intro h; exact absurd h (List.not_mem_nil a)
  | cons b tl ih =>
    intro h
    by_cases hb : b = a
    · exact ⟨[], tl, by rw [hb, List.nil_append], List.not_mem_nil a⟩
    · have hmem : a ∈ tl := by
        rcases List.mem_cons.mp h with h' | h'
        · exact absurd h'.symm hb
        · exact h'
      obtain ⟨l₁, l₂, heq, hnm⟩ := ih hmem
      refine ⟨b :: l₁, l₂, by rw [heq, List.cons_append], ?_⟩
      simp only [List.mem_cons, not_or]
      exact ⟨fun hab => hb hab.symm, hnm⟩

open Classical in
/-- Spheres with no in-range root never change the loop state, so the
loop only sees the contributing spheres, in order. -/
theorem traceFold_filter (origin direction : Vec3) (t_min t_max : EReal) :
    ∀ (l : List Sphere) (st : TraceState),
      traceFold origin direction t_min t_max st l =
        traceFold origin direction t_min t_max st
          (l.filter fun s => decide (Contributes origin direction t_min t_max s)) := by
  intro l
  induction l with
  | nil => intro st; rfl
  | cons a tl ih =>
    intro st
    by_cases hc : Contributes origin direction t_min t_max a
    · have hfil : (a :: tl).filter
          (fun s => decide (Contributes origin direction t_min t_max s)) =
          a :: tl.filter (fun s => decide (Contributes origin direction t_min t_max s)) :=
        List.filter_cons_of_pos (decide_eq_true hc)
      rw [hfil, traceFold_cons, traceFold_cons]
      exact ih _
    · have hstep : TraceRayStep origin direction t_min t_max st a = st := by
        apply traceRayStep_no_update
        intro r hr hcon
        rcases hr with h | h
        · subst h
          exact hc (Or.inl ⟨hcon.2.1, hcon.2.2⟩)
        · subst h
          exact hc (Or.inr ⟨hcon.2.1, hcon.2.2⟩)
      have hfil : (a :: tl).filter
          (fun s => decide (Contributes origin direction t_min t_max s)) =
          tl.filter (fun s => decide (Contributes origin direction t_min t_max s)) :=
        List.filter_cons_of_neg (fun h => hc (of_decide_eq_true h))
      rw [hfil, traceFold_cons, hstep]
      exact ih st

/-- C1 (counterexample). The claim asserts
`dir.y = y * Vh / H` with no sign flip.  On the `main.cpp` canvas
(Vh = 1, H = 600) at pixel (0, 100) the code returns
`dir.y = -(100/600)`, not `100/600`. -/
theorem canvasToViewPort_y_claim_false :
    ¬ ((mainCanvas.CanvasToViewPort 0 100).y =
      ((100 : ℤ) : ℝ) * mainCanvas.ViewHeight / (mainCanvas.CanvasHeight : ℝ)) := by
  simp only [Canvas.CanvasToViewPort, mainCanvas]
  norm_num

/-- C1 (amended). `CanvasToViewPort` returns
`dir.x = x * Vw / W`, `dir.y = -(y * Vh / H)` (the y term IS negated in
this function), and `dir.z = d`. -/
theorem canvasToViewPort_components (c : Canvas) (x y : ℤ) :
    (c.CanvasToViewPort x y).x = (x : ℝ) * c.ViewWidth / (c.CanvasWidth : ℝ) ∧
    (c.CanvasToViewPort x y).y = -((y : ℝ) * c.ViewHeight / (c.CanvasHeight : ℝ)) ∧
    (c.CanvasToViewPort x y).z = c.Distance :=
  ⟨rfl, rfl, rfl⟩

/-- C2 (counterexample). On the 800×600 canvas set up by `main.cpp`,
the centered coordinate (0, -300) lies in `[-W/2, W/2) × [-H/2, H/2)`
and `IsInBoundsCentered` accepts it, yet `PutPixelCentered` maps it to
the screen coordinate (400, 600), which `IsInBounds` rejects, so the
write is silently dropped: the claimed equivalence between the two
bounds predicates fails. -/
theorem centered_bounds_claim_false :
    mainCanvas.IsInBoundsCentered 0 (-300) = true ∧
    mainCanvas.IsInBounds
      (Int.tdiv mainCanvas.CanvasWidth 2 + 0)
      (Int.tdiv mainCanvas.CanvasHeight 2 - (-300)) = false ∧
    mainCanvas.PutPixelCentered 0 (-300) ⟨255, 0, 0, 255⟩ = mainCanvas := by
  refine ⟨by decide, by decide, ?_⟩
  have h : mainCanvas.IsInBounds
      (Int.tdiv mainCanvas.CanvasWidth 2 + 0)
      (Int.tdiv mainCanvas.CanvasHeight 2 - (-300)) = false := by decide
  simp only [Canvas.PutPixelCentered, Canvas.PutPixel, h]
  simp

/-- C2 (amended). For a canvas with positive dimensions, the screen
coordinate `(W/2 + x, H/2 - y)` written by `PutPixelCentered` satisfies
`IsInBounds` iff `-(W/2) ≤ x < W - W/2` and `H/2 - H < y ≤ H/2`
(divisions truncating toward zero), whereas `IsInBoundsCentered x y`
holds iff `(-W)/2 ≤ x < W/2` and `(-H)/2 ≤ y < H/2`; the two conditions
do not coincide (they differ at the vertical boundary, as the
counterexample shows), and `PutPixelCentered` writes through `PutPixel`
at exactly that mapped coordinate. -/
theorem centered_bounds_characterization (c : Canvas) (x y : ℤ) (col : Color)
    (hW : 0 < c.CanvasWidth) (hH : 0 < c.CanvasHeight) :
    (c.IsInBounds (Int.tdiv c.CanvasWidth 2 + x) (Int.tdiv c.CanvasHeight 2 - y) = true ↔
      (-(Int.tdiv c.CanvasWidth 2) ≤ x ∧ x < c.CanvasWidth - Int.tdiv c.CanvasWidth 2 ∧
       Int.tdiv c.CanvasHeight 2 - c.CanvasHeight < y ∧ y ≤ Int.tdiv c.CanvasHeight 2)) ∧
    (c.IsInBoundsCentered x y = true ↔
      (Int.tdiv (-c.CanvasWidth) 2 ≤ x ∧ x < Int.tdiv c.CanvasWidth 2 ∧
       Int.tdiv (-c.CanvasHeight) 2 ≤ y ∧ y < Int.tdiv c.CanvasHeight 2)) ∧
    c.PutPixelCentered x y col =
      c.PutPixel (Int.tdiv c.CanvasWidth 2 + x) (Int.tdiv c.CanvasHeight 2 - y) col := by
  refine ⟨?_, ?_, rfl⟩
  · simp only [Canvas.IsInBounds, Bool.and_eq_true, decide_eq_true_eq]
    omega
  · simp only [Canvas.IsInBoundsCentered, Bool.and_eq_true, decide_eq_true_eq]
    tauto

/-- C2 (amended, witness): instantiation on the `main.cpp` canvas. -/
theorem centered_bounds_characterization_witness :
    (mainCanvas.IsInBounds (Int.tdiv mainCanvas.CanvasWidth 2 + 5)
        (Int.tdiv mainCanvas.CanvasHeight 2 - 7) = true ↔
      (-(Int.tdiv mainCanvas.CanvasWidth 2) ≤ 5 ∧
       5 < mainCanvas.CanvasWidth - Int.tdiv mainCanvas.CanvasWidth 2 ∧
       Int.tdiv mainCanvas.CanvasHeight 2 - mainCanvas.CanvasHeight < 7 ∧
       7 ≤ Int.tdiv mainCanvas.CanvasHeight 2)) ∧
    (mainCanvas.IsInBoundsCentered 5 7 = true ↔
      (Int.tdiv (-mainCanvas.CanvasWidth) 2 ≤ 5 ∧
       5 < Int.tdiv mainCanvas.CanvasWidth 2 ∧
       Int.tdiv (-mainCanvas.CanvasHeight) 2 ≤ 7 ∧
       7 < Int.tdiv mainCanvas.CanvasHeight 2)) ∧
    mainCanvas.PutPixelCentered 5 7 ⟨255, 0, 0, 255⟩ =
      mainCanvas.PutPixel (Int.tdiv mainCanvas.CanvasWidth 2 + 5)
        (Int.tdiv mainCanvas.CanvasHeight 2 - 7) ⟨255, 0, 0, 255⟩ :=
  centered_bounds_characterization mainCanvas 5 7 ⟨255, 0, 0, 255⟩
    (by decide) (by decide)

/-- C8. A `PutPixel` call outside `[0, W) × [0, H)` leaves the canvas
(and hence every pixel) unchanged; `IsInBounds` holds exactly on that
rectangle; and an in-bounds call writes the requested pixel and leaves
every other pixel unchanged. -/
theorem putPixel_bounds (c : Canvas) (x y : ℤ) (col : Color) :
    (c.IsInBounds x y = false → c.PutPixel x y col = c) ∧
    (c.IsInBounds x y = true ↔
      (0 ≤ x ∧ x < c.CanvasWidth ∧ 0 ≤ y ∧ y < c.CanvasHeight)) ∧
    (c.IsInBounds x y = true →
      (c.PutPixel x y col).pixels x y = col ∧
      ∀ a b : ℤ, ¬(a = x ∧ b = y) → (c.PutPixel x y col).pixels a b = c.pixels a b) := by
  refine ⟨?_, ?_, ?_⟩
  · intro h
    simp [Canvas.PutPixel, h]
  · simp only [Canvas.IsInBounds, Bool.and_eq_true, decide_eq_true_eq]
    tauto
  · intro h
    constructor
    · simp [Canvas.PutPixel, h]
    · intro a b hab
      simp [Canvas.PutPixel, h, hab]

/-- C8 (witness): instantiation at an out-of-bounds and at an in-bounds
coordinate of the `main.cpp` canvas. -/
theorem putPixel_bounds_witness :
    (mainCanvas.IsInBounds 800 0 = false → mainCanvas.PutPixel 800 0 ⟨255, 0, 0, 255⟩ = mainCanvas) ∧
    (mainCanvas.IsInBounds 800 0 = true ↔
      (0 ≤ (800 : ℤ) ∧ (800 : ℤ) < mainCanvas.CanvasWidth ∧ 0 ≤ (0 : ℤ) ∧ (0 : ℤ) < mainCanvas.CanvasHeight)) ∧
    (mainCanvas.IsInBounds 800 0 = true →
      (mainCanvas.PutPixel 800 0 ⟨255, 0, 0, 255⟩).pixels 800 0 = ⟨255, 0, 0, 255⟩ ∧
      ∀ a b : ℤ, ¬(a = 800 ∧ b = 0) →
        (mainCanvas.PutPixel 800 0 ⟨255, 0, 0, 255⟩).pixels a b = mainCanvas.pixels a b) :=
  putPixel_bounds mainCanvas 800 0 ⟨255, 0, 0, 255⟩

/-- C4. Whenever the discriminant `k2² - 4·k1·k3` of the ray-sphere
quadratic is negative, `IntersectRaySphere` returns `(+∞, +∞)`. -/
theorem intersect_neg_discriminant (origin direction : Vec3) (sphere : Sphere)
    (h : discriminant origin direction sphere < 0) :
    IntersectRaySphere origin direction sphere = (⊤, ⊤) := by
  rw [IntersectRaySphere, if_pos h]

/-- C4 (witness): the ray from the origin along +z against the unit
sphere at (5, 0, 0) has discriminant -96 < 0. -/
theorem intersect_neg_discriminant_witness :
    discriminant ⟨0, 0, 0⟩ ⟨0, 0, 1⟩ ⟨⟨5, 0, 0⟩, 1, ⟨255, 0, 0, 255⟩⟩ < 0 ∧
    IntersectRaySphere ⟨0, 0, 0⟩ ⟨0, 0, 1⟩ ⟨⟨5, 0, 0⟩, 1, ⟨255, 0, 0, 255⟩⟩ = (⊤, ⊤) := by
  have h : discriminant (⟨0, 0, 0⟩ : Vec3) ⟨0, 0, 1⟩ ⟨⟨5, 0, 0⟩, 1, ⟨255, 0, 0, 255⟩⟩ < 0 := by
    norm_num [discriminant, iK1, iK2, iK3, Vector3DotProduct, Vector3Subtract]
  exact ⟨h, intersect_neg_discriminant _ _ _ h⟩

/-- C10. With `a = direction·direction > 0` and a non-negative
discriminant, `IntersectRaySphere` returns exactly
`((-k2 + √D)/(2·k1), (-k2 - √D)/(2·k1))`, and the first component is
greater than or equal to the second. -/
theorem intersect_roots_ordered (origin direction : Vec3) (sphere : Sphere)
    (ha : 0 < iK1 direction) (hd : 0 ≤ discriminant origin direction sphere) :
    IntersectRaySphere origin direction sphere =
      ((((-iK2 origin direction sphere +
            Real.sqrt (discriminant origin direction sphere)) / (2 * iK1 direction) : ℝ) : EReal),
       (((-iK2 origin direction sphere -
            Real.sqrt (discriminant origin direction sphere)) / (2 * iK1 direction) : ℝ) : EReal)) ∧
    (IntersectRaySphere origin direction sphere).2 ≤
      (IntersectRaySphere origin direction sphere).1 := by
  have heq : IntersectRaySphere origin direction sphere =
      ((((-iK2 origin direction sphere +
            Real.sqrt (discriminant origin direction sphere)) / (2 * iK1 direction) : ℝ) : EReal),
       (((-iK2 origin direction sphere -
            Real.sqrt (discriminant origin direction sphere)) / (2 * iK1 direction) : ℝ) : EReal)) := by
    rw [IntersectRaySphere, if_neg (not_lt.mpr hd)]
  refine ⟨heq, ?_⟩
  rw [heq]
  exact EReal.coe_le_coe_iff.mpr
    (div_le_div_of_nonneg_right
      (by linarith [Real.sqrt_nonneg (discriminant origin direction sphere)])
      (by linarith))

/-- C10 (witness): the ray from the origin along +z against the unit
sphere at (0, 0, 3) has `k1 = 1 > 0` and discriminant `4 ≥ 0`, so the
returned pair is ordered. -/
theorem intersect_roots_ordered_witness :
    0 < iK1 ⟨0, 0, 1⟩ ∧
    0 ≤ discriminant ⟨0, 0, 0⟩ ⟨0, 0, 1⟩ ⟨⟨0, 0, 3⟩, 1, ⟨255, 0, 0, 255⟩⟩ ∧
    (IntersectRaySphere ⟨0, 0, 0⟩ ⟨0, 0, 1⟩ ⟨⟨0, 0, 3⟩, 1, ⟨255, 0, 0, 255⟩⟩).2 ≤
      (IntersectRaySphere ⟨0, 0, 0⟩ ⟨0, 0, 1⟩ ⟨⟨0, 0, 3⟩, 1, ⟨255, 0, 0, 255⟩⟩).1 := by
  have h1 : 0 < iK1 (⟨0, 0, 1⟩ : Vec3) := by
    norm_num [iK1, Vector3DotProduct]
  have h2 : 0 ≤ discriminant (⟨0, 0, 0⟩ : Vec3) ⟨0, 0, 1⟩ ⟨⟨0, 0, 3⟩, 1, ⟨255, 0, 0, 255⟩⟩ := by
    norm_num [discriminant, iK1, iK2, iK3, Vector3DotProduct, Vector3Subtract]
  exact ⟨h1, h2, (intersect_roots_ordered _ _ _ h1 h2).2⟩

/-- Quadratic-formula algebra: when the discriminant equals
`4·A·r²` with `A ≠ 0`, the two roots differ by `√D / A`, so the square
of their difference times `A` is `4·r²`. -/
theorem roots_diff_sq (K A D r : ℝ) (hA : A ≠ 0) (hD : D = 4 * A * r ^ 2)
    (hD0 : 0 ≤ D) :
    ((-K + Real.sqrt D) / (2 * A) - (-K - Real.sqrt D) / (2 * A)) ^ 2 * A =
      4 * r ^ 2 := by
  have hs : Real.sqrt D ^ 2 = 4 * A * r ^ 2 := by rw [Real.sq_sqrt hD0, hD]
  have h1 : (-K + Real.sqrt D) / (2 * A) - (-K - Real.sqrt D) / (2 * A) =
      Real.sqrt D / A := by
    field_simp
    ring
  rw [h1, div_pow, hs]
  field_simp
  ring

/-- C6. For a ray with non-zero direction whose line passes through
the sphere's center (`origin - center` is a scalar multiple of the
direction), the two roots returned by `IntersectRaySphere` are finite
and satisfy `(t1 - t2)² · (direction·direction) = 4·radius²`
(equivalently they differ by `2r/|direction|`); and whenever the
discriminant is exactly zero the two returned roots are equal. -/
theorem intersect_center_ray (origin direction : Vec3) (sphere : Sphere) :
    (direction ≠ ⟨0, 0, 0⟩ →
      (∃ lam : ℝ, Vector3Subtract origin sphere.center =
        ⟨lam * direction.x, lam * direction.y, lam * direction.z⟩) →
      ∃ u v : ℝ,
        IntersectRaySphere origin direction sphere = ((u : EReal), (v : EReal)) ∧
        (u - v) ^ 2 * Vector3DotProduct direction direction =
          4 * sphere.radius ^ 2) ∧
    (discriminant origin direction sphere = 0 →
      (IntersectRaySphere origin direction sphere).1 =
        (IntersectRaySphere origin direction sphere).2) := by
  constructor
  · rintro hne ⟨lam, hlam⟩
    obtain ⟨dx, dy, dz⟩ := direction
    obtain ⟨ox, oy, oz⟩ := origin
    obtain ⟨⟨cx, cy, cz⟩, r, col⟩ := sphere
    simp only [Vector3Subtract, Vec3.mk.injEq] at hlam
    obtain ⟨h1, h2, h3⟩ := hlam
    have hcomp : dx ≠ 0 ∨ dy ≠ 0 ∨ dz ≠ 0 := by
      by_contra hc
      push_neg at hc
      exact hne (by rw [hc.1, hc.2.1, hc.2.2])
    have ha : 0 < dx * dx + dy * dy + dz * dz := by
      rcases hcomp with h | h | h <;>
        nlinarith [mul_self_nonneg dx, mul_self_nonneg dy, mul_self_nonneg dz,
          mul_self_pos.mpr h]
    have haK : 0 < iK1 ⟨dx, dy, dz⟩ := ha
    have hdisc : discriminant ⟨ox, oy, oz⟩ ⟨dx, dy, dz⟩ ⟨⟨cx, cy, cz⟩, r, col⟩ =
        4 * iK1 ⟨dx, dy, dz⟩ * r ^ 2 := by
      simp only [discriminant, iK1, iK2, iK3, Vector3DotProduct, Vector3Subtract]
      rw [h1, h2, h3]
      ring
    have hd0 : 0 ≤ discriminant ⟨ox, oy, oz⟩ ⟨dx, dy, dz⟩ ⟨⟨cx, cy, cz⟩, r, col⟩ := by
      rw [hdisc]
      positivity
    refine ⟨(-iK2 ⟨ox, oy, oz⟩ ⟨dx, dy, dz⟩ ⟨⟨cx, cy, cz⟩, r, col⟩ +
        Real.sqrt (discriminant ⟨ox, oy, oz⟩ ⟨dx, dy, dz⟩ ⟨⟨cx, cy, cz⟩, r, col⟩)) /
        (2 * iK1 ⟨dx, dy, dz⟩),
      (-iK2 ⟨ox, oy, oz⟩ ⟨dx, dy, dz⟩ ⟨⟨cx, cy, cz⟩, r, col⟩ -
        Real.sqrt (discriminant ⟨ox, oy, oz⟩ ⟨dx, dy, dz⟩ ⟨⟨cx, cy, cz⟩, r, col⟩)) /
        (2 * iK1 ⟨dx, dy, dz⟩), ?_, ?_⟩
    · rw [IntersectRaySphere, if_neg (not_lt.mpr hd0)]
    · exact roots_diff_sq _ _ _ _ (ne_of_gt haK) hdisc hd0
  · intro h
    rw [IntersectRaySphere, if_neg (by rw [h]; exact lt_irrefl 0)]
    simp [h]

/-- C6 (witness): the ray from the origin along +z passes through the
center (0, 0, 3) of the red unit sphere (with `lam = -3`), and the
roots returned for it satisfy the difference law. -/
theorem intersect_center_ray_witness :
    ((⟨0, 0, 1⟩ : Vec3) ≠ ⟨0, 0, 0⟩) ∧
    (Vector3Subtract ⟨0, 0, 0⟩ (⟨⟨0, 0, 3⟩, 1, ⟨255, 0, 0, 255⟩⟩ : Sphere).center =
      ⟨(-3 : ℝ) * (⟨0, 0, 1⟩ : Vec3).x, (-3 : ℝ) * (⟨0, 0, 1⟩ : Vec3).y,
       (-3 : ℝ) * (⟨0, 0, 1⟩ : Vec3).z⟩) ∧
    (∃ u v : ℝ,
      IntersectRaySphere ⟨0, 0, 0⟩ ⟨0, 0, 1⟩ ⟨⟨0, 0, 3⟩, 1, ⟨255, 0, 0, 255⟩⟩ =
        ((u : EReal), (v : EReal)) ∧
      (u - v) ^ 2 * Vector3DotProduct ⟨0, 0, 1⟩ ⟨0, 0, 1⟩ =
        4 * (⟨⟨0, 0, 3⟩, 1, ⟨255, 0, 0, 255⟩⟩ : Sphere).radius ^ 2) := by
  have hne : (⟨0, 0, 1⟩ : Vec3) ≠ ⟨0, 0, 0⟩ := by
    simp [Vec3.mk.injEq]
  have hlam : Vector3Subtract ⟨0, 0, 0⟩ (⟨⟨0, 0, 3⟩, 1, ⟨255, 0, 0, 255⟩⟩ : Sphere).center =
      (⟨(-3 : ℝ) * (⟨0, 0, 1⟩ : Vec3).x, (-3 : ℝ) * (⟨0, 0, 1⟩ : Vec3).y,
        (-3 : ℝ) * (⟨0, 0, 1⟩ : Vec3).z⟩ : Vec3) := by
    simp only [Vector3Subtract, Vec3.mk.injEq]
    norm_num
  exact ⟨hne, hlam,
    (intersect_center_ray ⟨0, 0, 0⟩ ⟨0, 0, 1⟩ ⟨⟨0, 0, 3⟩, 1, ⟨255, 0, 0, 255⟩⟩).1 hne
      ⟨-3, hlam⟩⟩

/-- C9. The sphere list of a `Raytracer` is fixed at construction: an
arbitrary sequence of `TraceRay` calls leaves the whole `Raytracer`
state, in particular each sphere's center, radius and color,
unchanged; specifically, the scene built by the constructor is still
the constructor's scene after any call sequence. -/
theorem raytracer_spheres_immutable (rt : Raytracer) (qs : List RayQuery) :
    rt.runCalls qs = rt ∧
    (rt.runCalls qs).spheres = rt.spheres ∧
    ((Raytracer.mk constructorSpheres).runCalls qs).spheres = constructorSpheres := by
  have h : ∀ (r : Raytracer) (l : List RayQuery), r.runCalls l = r := by
    intro r l
    induction l generalizing r with
    | nil => rfl
    | cons q t ih => exact ih r
  exact ⟨h rt qs, by rw [h rt qs], by rw [h _ qs]⟩

/-- C5. With an empty valid range (`t_min ≥ t_max`) no root can pass
the `t_min < t && t < t_max` test, so `TraceRay` returns the
background color regardless of the scene. -/
theorem traceRay_empty_range (background : Color) (spheres : List Sphere)
    (origin direction : Vec3) (t_min t_max : EReal) (h : t_max ≤ t_min) :
    TraceRay background spheres origin direction t_min t_max = background :=
  TraceRay_of_none (traceFold_no_update origin direction t_min t_max spheres _
    (fun _ _ _ _ hcon => absurd (hcon.2.1.trans hcon.2.2) (not_lt.mpr h)))

/-- C5 (witness): with `t_min = 5 ≥ 1 = t_max` the constructor scene
yields the background color. -/
theorem traceRay_empty_range_witness :
    TraceRay ⟨255, 255, 255, 255⟩ constructorSpheres ⟨0, 0, 0⟩ ⟨0, 0, 1⟩
      ((5 : ℝ) : EReal) ((1 : ℝ) : EReal) = ⟨255, 255, 255, 255⟩ :=
  traceRay_empty_range ⟨255, 255, 255, 255⟩ constructorSpheres ⟨0, 0, 0⟩ ⟨0, 0, 1⟩
    ((5 : ℝ) : EReal) ((1 : ℝ) : EReal) (EReal.coe_le_coe_iff.mpr (by norm_num))

/-- C3. `TraceRay` returns the background color when no root of any
sphere lies strictly inside `(t_min, t_max)`; and when a sphere `s`
owns an in-range root `t` that is minimal among all in-range roots
(strictly below every in-range root of every other sphere), it
returns the color of `s`. -/
theorem traceRay_nearest (background : Color) (spheres : List Sphere)
    (origin direction : Vec3) (t_min t_max : EReal) :
    ((∀ s ∈ spheres, ∀ r : EReal, IsRoot origin direction s r →
        ¬ Qualifies t_min t_max r) →
      TraceRay background spheres origin direction t_min t_max = background) ∧
    (∀ s ∈ spheres, ∀ t : EReal, IsRoot origin direction s t →
      Qualifies t_min t_max t →
      (∀ s' ∈ spheres, ∀ r : EReal, IsRoot origin direction s' r →
        Qualifies t_min t_max r → t ≤ r ∧ (s' ≠ s → t < r)) →
      TraceRay background spheres origin direction t_min t_max = s.color) := by
  constructor
  · intro h
    exact TraceRay_of_none (traceFold_no_update origin direction t_min t_max spheres _
      (fun s hs r hr hcon => h s hs r hr ⟨hcon.2.1, hcon.2.2⟩))
  · intro s hs t ht hq hmin
    obtain ⟨l₁, l₂, rfl, hnm⟩ := exists_first_split s spheres hs
    refine TraceRay_of_some
      (traceFold_winner origin direction t_min t_max t s l₂ ht hq.1 hq.2 ?_ ?_ l₁ _ ?_ ?_)
    · intro r hr h1 h2
      exact (hmin s (by simp) r hr ⟨h1, h2⟩).1
    · intro s' hs' r hr h1 h2
      exact (hmin s' (by simp [hs']) r hr ⟨h1, h2⟩).1
    · exact lt_of_lt_of_le hq.2 le_top
    · intro s' hs' r hr h1 h2
      have hne : s' ≠ s := fun he => hnm (he ▸ hs')
      exact (hmin s' (by simp [hs']) r hr ⟨h1, h2⟩).2 hne

/-- C3 (witness): the spec's concrete scenario.  The red unit sphere
at (0, 0, 3) is hit by the +z ray at t = 2 (roots 4 and 2) and the
green unit sphere at (0, 0, 6) at t = 5 (roots 7 and 5); with range
(1, 10) the nearest hit t = 2 wins and `TraceRay` returns red. -/
theorem traceRay_nearest_witness :
    TraceRay ⟨255, 255, 255, 255⟩
      [⟨⟨0, 0, 3⟩, 1, ⟨255, 0, 0, 255⟩⟩, ⟨⟨0, 0, 6⟩, 1, ⟨0, 255, 0, 255⟩⟩]
      ⟨0, 0, 0⟩ ⟨0, 0, 1⟩ ((1 : ℝ) : EReal) ((10 : ℝ) : EReal) =
      ⟨255, 0, 0, 255⟩ := by
  have h4 : Real.sqrt 4 = 2 := by
    rw [show (4 : ℝ) = 2 ^ 2 by norm_num, Real.sqrt_sq (by norm_num : (0:ℝ) ≤ 2)]
  have hIA : IntersectRaySphere ⟨0, 0, 0⟩ ⟨0, 0, 1⟩ ⟨⟨0, 0, 3⟩, 1, ⟨255, 0, 0, 255⟩⟩ =
      (((4 : ℝ) : EReal), ((2 : ℝ) : EReal)) := by
    have hd : discriminant ⟨0, 0, 0⟩ ⟨0, 0, 1⟩ ⟨⟨0, 0, 3⟩, 1, ⟨255, 0, 0, 255⟩⟩ = 4 := by
      norm_num [discriminant, iK1, iK2, iK3, Vector3DotProduct, Vector3Subtract]
    rw [IntersectRaySphere, if_neg (by rw [hd]; norm_num), hd, h4]
    norm_num [iK1, iK2, iK3, Vector3DotProduct, Vector3Subtract, Prod.ext_iff,
      EReal.coe_eq_coe_iff]
  have hIB : IntersectRaySphere ⟨0, 0, 0⟩ ⟨0, 0, 1⟩ ⟨⟨0, 0, 6⟩, 1, ⟨0, 255, 0, 255⟩⟩ =
      (((7 : ℝ) : EReal), ((5 : ℝ) : EReal)) := by
    have hd : discriminant ⟨0, 0, 0⟩ ⟨0, 0, 1⟩ ⟨⟨0, 0, 6⟩, 1, ⟨0, 255, 0, 255⟩⟩ = 4 := by
      norm_num [discriminant, iK1, iK2, iK3, Vector3DotProduct, Vector3Subtract]
    rw [IntersectRaySphere, if_neg (by rw [hd]; norm_num), hd, h4]
    norm_num [iK1, iK2, iK3, Vector3DotProduct, Vector3Subtract, Prod.ext_iff,
      EReal.coe_eq_coe_iff]
  refine (traceRay_nearest ⟨255, 255, 255, 255⟩
      [⟨⟨0, 0, 3⟩, 1, ⟨255, 0, 0, 255⟩⟩, ⟨⟨0, 0, 6⟩, 1, ⟨0, 255, 0, 255⟩⟩]
      ⟨0, 0, 0⟩ ⟨0, 0, 1⟩ ((1 : ℝ) : EReal) ((10 : ℝ) : EReal)).2
    ⟨⟨0, 0, 3⟩, 1, ⟨255, 0, 0, 255⟩⟩ (by simp) ((2 : ℝ) : EReal)
    (Or.inr (by rw [hIA])) ⟨EReal.coe_lt_coe_iff.mpr (by norm_num),
      EReal.coe_lt_coe_iff.mpr (by norm_num)⟩ ?_
  intro s' hs' r hr hq
  rcases List.mem_cons.mp hs' with he | he
  · subst he
    rw [IsRoot, hIA] at hr
    constructor
    · rcases hr with h | h <;> subst h
      · exact EReal.coe_le_coe_iff.mpr (by norm_num)
      · exact le_refl _
    · intro hne
      exact absurd rfl hne
  · have he2 : s' = ⟨⟨0, 0, 6⟩, 1, ⟨0, 255, 0, 255⟩⟩ := by
      simpa using he
    subst he2
    rw [IsRoot, hIB] at hr
    constructor
    · rcases hr with h | h <;> subst h
      · exact EReal.coe_le_coe_iff.mpr (by norm_num)
      · exact EReal.coe_le_coe_iff.mpr (by norm_num)
    · intro hne
      rcases hr with h | h <;> subst h
      · exact EReal.coe_lt_coe_iff.mpr (by norm_num)
      · exact EReal.coe_lt_coe_iff.mpr (by norm_num)

open Classical in
/-- C7. The color returned by `TraceRay` is unchanged under any
permutation of the scene that keeps the subsequence of contributing
spheres (those with a root strictly inside `(t_min, t_max)`) intact;
and when several spheres tie on the minimal in-range root, the one
occurring first in iteration order determines the color: the strict
`<` comparison never replaces an equal recorded root. -/
theorem traceRay_reorder (background : Color) (origin direction : Vec3)
    (t_min t_max : EReal) :
    (∀ l₁ l₂ : List Sphere, List.Perm l₁ l₂ →
      l₁.filter (fun s => decide (Contributes origin direction t_min t_max s)) =
        l₂.filter (fun s => decide (Contributes origin direction t_min t_max s)) →
      TraceRay background l₁ origin direction t_min t_max =
        TraceRay background l₂ origin direction t_min t_max) ∧
    (∀ (l₁ l₂ : List Sphere) (s : Sphere) (t : EReal),
      IsRoot origin direction s t → Qualifies t_min t_max t →
      (∀ s' ∈ l₁ ++ s :: l₂, ∀ r : EReal, IsRoot origin direction s' r →
        Qualifies t_min t_max r → t ≤ r) →
      (∀ s' ∈ l₁, ∀ r : EReal, IsRoot origin direction s' r →
        Qualifies t_min t_max r → t < r) →
      TraceRay background (l₁ ++ s :: l₂) origin direction t_min t_max = s.color) := by
  constructor
  · intro l₁ l₂ _ hfilter
    rw [TraceRay, TraceRay, traceFold_filter origin direction t_min t_max l₁,
      traceFold_filter origin direction t_min t_max l₂, hfilter]
  · intro l₁ l₂ s t ht hq hmin hstrict
    refine TraceRay_of_some
      (traceFold_winner origin direction t_min t_max t s l₂ ht hq.1 hq.2 ?_ ?_ l₁ _ ?_ ?_)
    · intro r hr h1 h2
      exact hmin s (by simp) r hr ⟨h1, h2⟩
    · intro s' hs' r hr h1 h2
      exact hmin s' (by simp [hs']) r hr ⟨h1, h2⟩
    · exact lt_of_lt_of_le hq.2 le_top
    · intro s' hs' r hr h1 h2
      exact hstrict s' hs' r hr ⟨h1, h2⟩

/-- C7 (witness): an exact tie.  Two spheres with identical geometry
(center (0, 0, 3), radius 1) but different colors are both hit at
t = 2 by the +z ray; the red one comes first in the list and its
color is returned. -/
theorem traceRay_reorder_witness :
    TraceRay ⟨255, 255, 255, 255⟩
      [⟨⟨0, 0, 3⟩, 1, ⟨255, 0, 0, 255⟩⟩, ⟨⟨0, 0, 3⟩, 1, ⟨0, 255, 0, 255⟩⟩]
      ⟨0, 0, 0⟩ ⟨0, 0, 1⟩ ((1 : ℝ) : EReal) ((10 : ℝ) : EReal) =
      ⟨255, 0, 0, 255⟩ := by
  have h4 : Real.sqrt 4 = 2 := by
    rw [show (4 : ℝ) = 2 ^ 2 by norm_num, Real.sqrt_sq (by norm_num : (0:ℝ) ≤ 2)]
  have hIA : IntersectRaySphere ⟨0, 0, 0⟩ ⟨0, 0, 1⟩ ⟨⟨0, 0, 3⟩, 1, ⟨255, 0, 0, 255⟩⟩ =
      (((4 : ℝ) : EReal), ((2 : ℝ) : EReal)) := by
    have hd : discriminant ⟨0, 0, 0⟩ ⟨0, 0, 1⟩ ⟨⟨0, 0, 3⟩, 1, ⟨255, 0, 0, 255⟩⟩ = 4 := by
      norm_num [discriminant, iK1, iK2, iK3, Vector3DotProduct, Vector3Subtract]
    rw [IntersectRaySphere, if_neg (by rw [hd]; norm_num), hd, h4]
    norm_num [iK1, iK2, iK3, Vector3DotProduct, Vector3Subtract, Prod.ext_iff,
      EReal.coe_eq_coe_iff]
  have hIB : IntersectRaySphere ⟨0, 0, 0⟩ ⟨0, 0, 1⟩ ⟨⟨0, 0, 3⟩, 1, ⟨0, 255, 0, 255⟩⟩ =
      (((4 : ℝ) : EReal), ((2 : ℝ) : EReal)) := by
    have hd : discriminant ⟨0, 0, 0⟩ ⟨0, 0, 1⟩ ⟨⟨0, 0, 3⟩, 1, ⟨0, 255, 0, 255⟩⟩ = 4 := by
      norm_num [discriminant, iK1, iK2, iK3, Vector3DotProduct, Vector3Subtract]
    rw [IntersectRaySphere, if_neg (by rw [hd]; norm_num), hd, h4]
    norm_num [iK1, iK2, iK3, Vector3DotProduct, Vector3Subtract, Prod.ext_iff,
      EReal.coe_eq_coe_iff]
  refine (traceRay_reorder ⟨255, 255, 255, 255⟩ ⟨0, 0, 0⟩ ⟨0, 0, 1⟩
      ((1 : ℝ) : EReal) ((10 : ℝ) : EReal)).2
    [] [⟨⟨0, 0, 3⟩, 1, ⟨0, 255, 0, 255⟩⟩] ⟨⟨0, 0, 3⟩, 1, ⟨255, 0, 0, 255⟩⟩
    ((2 : ℝ) : EReal) (Or.inr (by rw [hIA]))
    ⟨EReal.coe_lt_coe_iff.mpr (by norm_num),
      EReal.coe_lt_coe_iff.mpr (by norm_num)⟩ ?_ ?_
  · intro s' hs' r hr hq
    rcases List.mem_cons.mp hs' with he | he
    · subst he
      rw [IsRoot, hIA] at hr
      rcases hr with h | h <;> subst h
      · exact EReal.coe_le_coe_iff.mpr (by norm_num)
      · exact le_refl _
    · have he2 : s' = ⟨⟨0, 0, 3⟩, 1, ⟨0, 255, 0, 255⟩⟩ := by
        simpa using he
      subst he2
      rw [IsRoot, hIB] at hr
      rcases hr with h | h <;> subst h
      · exact EReal.coe_le_coe_iff.mpr (by norm_num)
      · exact le_refl _
  · intro s' hs'
    exact absurd hs' (List.not_mem_nil s')

end Graphics
